import Mathlib

/-!
Verification of the credential hashing and signing core of the repository
(`django/utils/crypto.py`, `django/utils/baseconv.py`,
`django/contrib/auth/hashers.py`, `django/core/signing.py`).

Modelling conventions:
* Python 2 `str` values are byte strings; they are modelled as `List Char`
  (`Str` below), with `ord` modelled as `Char.toNat`.  `smart_str` and
  `force_unicode` are identities in this byte-string model.
* Arbitrary-precision Python integers are modelled as `Nat`/`Int`.
* Code that can raise an exception is modelled with `Option`/`Except`.
* Primitives that live in the Python standard library (hashlib digests,
  hmac, zlib, the base64 module, bcrypt/crypt) are not part of the
  repository's source; they enter the model as explicit function
  parameters, except MD5 which is implemented concretely below (it is
  needed for a concrete legacy-hash fact).
-/

set_option maxRecDepth 200000

/-- Python 2 byte strings, modelled as lists of characters. -/
abbrev Str := List Char

/-- Coerce a Lean string literal to the byte-string model. -/
def pyStr (s : String) : Str := s.data

/-! ## `django.utils.crypto.constant_time_compare` -/

/-- `django/utils/crypto.py` lines 33-44: length check, then
`result |= ord(x) ^ ord(y)` over `zip(val1, val2)`, finally `result == 0`. -/
def constant_time_compare (val1 val2 : Str) : Bool :=
  if val1.length ≠ val2.length then false
  else
    ((List.zip val1 val2).foldl
      (fun result xy => result ||| (xy.1.toNat ^^^ xy.2.toNat)) 0) == 0

/-- Instrumented version of `constant_time_compare`: the second component
counts the iterations performed by the `for x, y in zip(val1, val2)` loop
(the loop body is straight-line, so the iteration count models the running
time of the loop). -/
def constant_time_compare_cost (val1 val2 : Str) : Bool × Nat :=
  if val1.length ≠ val2.length then (false, 0)
  else
    let st := (List.zip val1 val2).foldl
      (fun (st : Nat × Nat) xy =>
        (st.1 ||| (xy.1.toNat ^^^ xy.2.toNat), st.2 + 1)) (0, 0)
    (st.1 == 0, st.2)

/-! ## `django.utils.baseconv` -/

/-- `django/utils/baseconv.py` lines 47-52: a converter holds a digit
alphabet and a sign marker (default `'-'`). -/
structure BaseConverter where
  digits : Str
  sign : Char := '-'

/-- `BaseConverter.decimal_digits`. -/
def decimal_digits : Str := pyStr "0123456789"

/-- The digits produced by the loop
`while x > 0: digit = x % len(to_digits); res = to_digits[digit] + res;
x = int(x / len(to_digits))`, least significant first.  The recursion is
fuel-indexed; for an alphabet of length at least 2 the fuel `x` always
suffices (for shorter alphabets the Python loop does not terminate). -/
def toBaseGo (b : Nat) : Nat → Nat → List Nat
  | 0, _ => []
  | fuel + 1, x => if x = 0 then [] else x % b :: toBaseGo b fuel (x / b)

/-- The result string of the conversion loop (most significant digit
first, as the loop prepends). -/
def baseLoop (to_digits : Str) (x : Nat) : Str :=
  ((toBaseGo to_digits.length x x).map (fun d => to_digits.getD d ' ')).reverse

/-- Python's `str.index`: position of the first occurrence, or an error
(`none`) when the character does not occur. -/
def indexIn (c : Char) : Str → Option Nat
  | [] => none
  | d :: rest => if d = c then some 0 else (indexIn c rest).map (· + 1)

/-- The parsing loop `for digit in str(number): x = x * len(from_digits) +
from_digits.index(digit)`; `none` models the `ValueError` raised by
`.index` on a character outside `from_digits`. -/
def parseLoop (from_digits : Str) : Nat → Str → Option Nat
  | x, [] => some x
  | x, digit :: rest =>
    match indexIn digit from_digits with
    | none => none
    | some d => parseLoop from_digits (x * from_digits.length + d) rest

/-- `BaseConverter.convert` (baseconv.py lines 66-89).  `none` models the
exceptions: `str(number)[0]` on an empty string, and `.index` on a
character outside `from_digits`. -/
def BaseConverter.convert (c : BaseConverter)
    (number from_digits to_digits : Str) : Option Str :=
  match number with
  | [] => none
  | ch :: rest =>
    let neg := ch = c.sign
    let number' := if neg then rest else ch :: rest
    match parseLoop from_digits 0 number' with
    | none => none
    | some x =>
      let res := if x = 0 then [to_digits.getD 0 ' '] else baseLoop to_digits x
      some (if neg ∧ x ≠ 0 then c.sign :: res else res)

/-- Python's `str(n)` for a natural number. -/
def natStr (n : Nat) : Str := if n = 0 then pyStr "0" else baseLoop decimal_digits n

/-- Python's `str(i)` for an integer. -/
def intStr (i : Int) : Str :=
  if i < 0 then '-' :: natStr i.natAbs else natStr i.natAbs

/-- Python's `int(s)` on a decimal string (with optional leading `'-'`);
`none` models the `ValueError` on malformed input. -/
def pyInt (s : Str) : Option Int :=
  match s with
  | [] => none
  | ch :: rest =>
    if ch = '-' then
      if rest = [] then none
      else (parseLoop decimal_digits 0 rest).map (fun n => -(n : Int))
    else (parseLoop decimal_digits 0 (ch :: rest)).map (fun n => (n : Int))

/-- `BaseConverter.encode` (baseconv.py lines 57-58):
`convert(i, decimal_digits, digits)`, where the int argument is rendered
by `str`. -/
def BaseConverter.encode (c : BaseConverter) (i : Int) : Option Str :=
  c.convert (intStr i) decimal_digits c.digits

/-- `BaseConverter.decode` (baseconv.py lines 60-64) for the default sign
`'-'`: `int(convert(s, digits, decimal_digits))`.  (For a non-default
sign the source returns the converted string unchanged; the claims only
exercise the default sign.) -/
def BaseConverter.decode (c : BaseConverter) (s : Str) : Option Int :=
  (c.convert s c.digits decimal_digits).bind pyInt

/-- baseconv.py line 44. -/
def BASE62_ALPHABET : Str :=
  pyStr "0123456789ABCDEFGHIJKLMNOPQRSTUVWXYZabcdefghijklmnopqrstuvwxyz"

/-- baseconv.py line 95. -/
def base62 : BaseConverter := { digits := BASE62_ALPHABET }

/-! ## MD5 (`hashlib.md5(...).hexdigest()`)

The repository calls the standard library's MD5; it is implemented here
concretely (RFC 1321) over byte lists so that the legacy bare-MD5 hash
facts can be evaluated inside the logic. -/

def w32 (x : Nat) : Nat := x % 4294967296

def rotl32 (x s : Nat) : Nat := w32 (w32 x * 2 ^ s) ||| (w32 x / 2 ^ (32 - s))

def compl32 (x : Nat) : Nat := 4294967295 - w32 x

def md5K : List Nat :=
  [0xd76aa478, 0xe8c7b756, 0x242070db, 0xc1bdceee,
   0xf57c0faf, 0x4787c62a, 0xa8304613, 0xfd469501,
   0x698098d8, 0x8b44f7af, 0xffff5bb1, 0x895cd7be,
   0x6b901122, 0xfd987193, 0xa679438e, 0x49b40821,
   0xf61e2562, 0xc040b340, 0x265e5a51, 0xe9b6c7aa,
   0xd62f105d, 0x02441453, 0xd8a1e681, 0xe7d3fbc8,
   0x21e1cde6, 0xc33707d6, 0xf4d50d87, 0x455a14ed,
   0xa9e3e905, 0xfcefa3f8, 0x676f02d9, 0x8d2a4c8a,
   0xfffa3942, 0x8771f681, 0x6d9d6122, 0xfde5380c,
   0xa4beea44, 0x4bdecfa9, 0xf6bb4b60, 0xbebfbc70,
   0x289b7ec6, 0xeaa127fa, 0xd4ef3085, 0x04881d05,
   0xd9d4d039, 0xe6db99e5, 0x1fa27cf8, 0xc4ac5665,
   0xf4292244, 0x432aff97, 0xab9423a7, 0xfc93a039,
   0x655b59c3, 0x8f0ccc92, 0xffeff47d, 0x85845dd1,
   0x6fa87e4f, 0xfe2ce6e0, 0xa3014314, 0x4e0811a1,
   0xf7537e82, 0xbd3af235, 0x2ad7d2bb, 0xeb86d391]

def md5S : List Nat :=
  [7, 12, 17, 22, 7, 12, 17, 22, 7, 12, 17, 22, 7, 12, 17, 22,
   5, 9, 14, 20, 5, 9, 14, 20, 5, 9, 14, 20, 5, 9, 14, 20,
   4, 11, 16, 23, 4, 11, 16, 23, 4, 11, 16, 23, 4, 11, 16, 23,
   6, 10, 15, 21, 6, 10, 15, 21, 6, 10, 15, 21, 6, 10, 15, 21]

def md5F (i b c d : Nat) : Nat :=
  if i < 16 then (b &&& c) ||| (compl32 b &&& d)
  else if i < 32 then (d &&& b) ||| (compl32 d &&& c)
  else if i < 48 then b ^^^ c ^^^ d
  else c ^^^ (b ||| compl32 d)

def md5G (i : Nat) : Nat :=
  if i < 16 then i
  else if i < 32 then (5 * i + 1) % 16
  else if i < 48 then (3 * i + 5) % 16
  else (7 * i) % 16

def md5Step (M : List Nat) (st : Nat × Nat × Nat × Nat) (i : Nat) :
    Nat × Nat × Nat × Nat :=
  let a := st.1
  let b := st.2.1
  let c := st.2.2.1
  let d := st.2.2.2
  let f := w32 (md5F i b c d + a + md5K.getD i 0 + M.getD (md5G i) 0)
  (d, w32 (b + rotl32 f (md5S.getD i 0)), b, c)

def md5Block (st : Nat × Nat × Nat × Nat) (M : List Nat) :
    Nat × Nat × Nat × Nat :=
  let r := (List.range 64).foldl (md5Step M) st
  (w32 (st.1 + r.1), w32 (st.2.1 + r.2.1),
   w32 (st.2.2.1 + r.2.2.1), w32 (st.2.2.2 + r.2.2.2))

def leBytes4 (x : Nat) : List Nat :=
  [x % 256, x / 256 % 256, x / 65536 % 256, x / 16777216 % 256]

def leBytes8 (x : Nat) : List Nat :=
  leBytes4 (x % 4294967296) ++ leBytes4 (x / 4294967296)

def leWordOf (bytes : List Nat) (j : Nat) : Nat :=
  bytes.getD (4 * j) 0 + 256 * bytes.getD (4 * j + 1) 0 +
    65536 * bytes.getD (4 * j + 2) 0 + 16777216 * bytes.getD (4 * j + 3) 0

def blockWords (chunk : List Nat) : List Nat :=
  (List.range 16).map (leWordOf chunk)

def md5Pad (msg : List Nat) : List Nat :=
  msg ++ 128 :: List.replicate ((119 - msg.length % 64) % 64) 0 ++
    leBytes8 (8 * msg.length)

def md5Chunks : Nat → List Nat → List (List Nat)
  | 0, _ => []
  | fuel + 1, l => if l = [] then [] else l.take 64 :: md5Chunks fuel (l.drop 64)

def md5Init : Nat × Nat × Nat × Nat :=
  (0x67452301, 0xefcdab89, 0x98badcfe, 0x10325476)

def md5Bytes (msg : List Nat) : List Nat :=
  let padded := md5Pad msg
  let final := (md5Chunks padded.length padded).foldl
    (fun st chunk => md5Block st (blockWords chunk)) md5Init
  leBytes4 final.1 ++ leBytes4 final.2.1 ++ leBytes4 final.2.2.1 ++
    leBytes4 final.2.2.2

def hexDigitChar (n : Nat) : Char := (pyStr "0123456789abcdef").getD n ' '

def hexOfBytes (bs : List Nat) : Str :=
  bs.flatMap (fun b => [hexDigitChar (b / 16), hexDigitChar (b % 16)])

/-- `hashlib.md5(s).hexdigest()`. -/
def md5hex (s : Str) : Str := hexOfBytes (md5Bytes (s.map Char.toNat))

/-! ## `django.contrib.auth.hashers` -/

/-- hashers.py line 11. -/
def UNUSABLE_PASSWORD : Str := pyStr "!"

/-- hashers.py lines 16-17; a `none` argument models Python `None`. -/
def is_password_usable (encoded : Option Str) : Bool :=
  match encoded with
  | none => false
  | some e => e ≠ UNUSABLE_PASSWORD

/-- A loaded hasher instance: its `algorithm` tag, `encode`, `verify` and
the value its `salt()` method would generate.  `none` results model
exceptions (failed `assert`s, malformed encoded input, missing native
library). -/
structure Hasher where
  algorithm : Str
  encode : Str → Str → Option Str
  verify : Str → Str → Option Bool
  salt : Str

/-- Python's `s.split(sep, 1)` viewed as one splitting step: the part
before the first separator and the part after it, or `none` when the
separator does not occur (which makes a tuple-unpacking `split` raise). -/
def splitFirst (sep : Char) (s : Str) : Option (Str × Str) :=
  if sep ∈ s then
    some (s.takeWhile (fun c => c ≠ sep), (s.dropWhile (fun c => c ≠ sep)).tail)
  else none

/-- `PBKDF2PasswordHasher.encode` (hashers.py lines 160-167).  The two
`assert`s execute first (modelled by `none`), then
`if not iterations: iterations = self.iterations`, and then line 165 calls
`pbkdf2(password, salt, iterations, digest=self.digest)` — but
`crypto.pbkdf2` (crypto.py line 66) has the signature
`pbkdf2(password, salt, iterations=2000, dklen=0, prf=None)` with no
`digest` parameter, so the call raises
`TypeError: pbkdf2() got an unexpected keyword argument 'digest'` before
the function body runs.  Every branch that survives the asserts is
therefore `none`. -/
def pbkdf2_encode (_algorithm : Str) (password salt : Str)
    (iterations : Int) : Option Str :=
  if password = [] then none
  else if salt = [] ∨ '$' ∈ salt then none
  else
    let _iterations := if iterations = 0 then (10000 : Int) else iterations
    (none : Option Str)

/-- `PBKDF2PasswordHasher.verify` (hashers.py lines 169-173):
`encoded.split('$', 3)` tuple-unpacked (`ValueError` when there are fewer
than four parts), `assert algorithm == self.algorithm`, `int(iterations)`,
then `self.encode(password, salt, int(iterations))` — which always raises
the `TypeError` described at `pbkdf2_encode`. -/
def pbkdf2_verify (algorithm : Str) (password encoded : Str) :
    Option Bool := do
  let p1 ← splitFirst '$' encoded
  let p2 ← splitFirst '$' p1.2
  let p3 ← splitFirst '$' p2.2
  if p1.1 = algorithm then
    match pyInt p2.1 with
    | none => none
    | some n => do
      let encoded2 ← pbkdf2_encode algorithm password p3.1 n
      pure (constant_time_compare encoded encoded2)
  else none

/-- hashers.py lines 148-173 (`algorithm = "pbkdf2_sha256"`,
`iterations = 10000`).  `gensalt` is the value `get_random_string()`
returned for this instance's `salt()`. -/
def PBKDF2PasswordHasher (gensalt : Str) : Hasher :=
  { algorithm := pyStr "pbkdf2_sha256"
    encode := fun password salt =>
      pbkdf2_encode (pyStr "pbkdf2_sha256") password salt 0
    verify := pbkdf2_verify (pyStr "pbkdf2_sha256")
    salt := gensalt }

/-- hashers.py lines 176-184: same code with `algorithm = "pbkdf2_sha1"`
and `digest = hashlib.sha1` (the inherited `encode` passes that digest by
the same nonexistent keyword, so it raises the same `TypeError`). -/
def PBKDF2SHA1PasswordHasher (gensalt : Str) : Hasher :=
  { algorithm := pyStr "pbkdf2_sha1"
    encode := fun password salt =>
      pbkdf2_encode (pyStr "pbkdf2_sha1") password salt 0
    verify := pbkdf2_verify (pyStr "pbkdf2_sha1")
    salt := gensalt }

/-- `SHA1PasswordHasher.encode` (hashers.py lines 228-232), with
`hashlib.sha1(...).hexdigest()` abstracted as `sha1hex`. -/
def sha1_encode (sha1hex : Str → Str) (password salt : Str) : Option Str :=
  if password = [] then none
  else if salt = [] ∨ '$' ∈ salt then none
  else some (pyStr "sha1" ++ '$' :: salt ++ '$' :: sha1hex (salt ++ password))

/-- `SHA1PasswordHasher.verify` (hashers.py lines 234-238). -/
def sha1_verify (sha1hex : Str → Str) (password encoded : Str) : Option Bool := do
  let p1 ← splitFirst '$' encoded
  let p2 ← splitFirst '$' p1.2
  if p1.1 = pyStr "sha1" then do
    let e2 ← sha1_encode sha1hex password p2.1
    pure (constant_time_compare encoded e2)
  else none

/-- hashers.py lines 222-238. -/
def SHA1PasswordHasher (sha1hex : Str → Str) (gensalt : Str) : Hasher :=
  { algorithm := pyStr "sha1"
    encode := sha1_encode sha1hex
    verify := sha1_verify sha1hex
    salt := gensalt }

/-- hashers.py lines 241-260: unsalted legacy MD5, bare 32-hex-digit
encoding (no algorithm tag), `salt()` returns the empty string. -/
def MD5PasswordHasher : Hasher :=
  { algorithm := pyStr "md5"
    encode := fun password _salt => some (md5hex password)
    verify := fun password encoded =>
      some (constant_time_compare encoded (md5hex password))
    salt := [] }

/-- hashers.py lines 187-219, with the native `bcrypt.hashpw` abstracted
as `hashpw` (the model assumes the library is importable). -/
def BCryptPasswordHasher (hashpw : Str → Str → Str) (gensalt : Str) : Hasher :=
  { algorithm := pyStr "bcrypt"
    encode := fun password salt => some (pyStr "bcrypt" ++ '$' :: hashpw password salt)
    verify := fun password encoded => do
      let p1 ← splitFirst '$' encoded
      if p1.1 = pyStr "bcrypt" then
        pure (constant_time_compare p1.2 (hashpw password p1.2))
      else none
    salt := gensalt }

/-- hashers.py lines 263-293, with the platform `crypt.crypt` abstracted
as `cryptFn`. -/
def CryptPasswordHasher (cryptFn : Str → Str → Str) (gensalt : Str) : Hasher :=
  { algorithm := pyStr "crypt"
    encode := fun password salt =>
      if salt.length = 2 then
        some (pyStr "crypt" ++ '$' :: '$' :: cryptFn password salt)
      else none
    verify := fun password encoded => do
      let p1 ← splitFirst '$' encoded
      let p2 ← splitFirst '$' p1.2
      if p1.1 = pyStr "crypt" then
        pure (constant_time_compare p2.2 (cryptFn password p2.2))
      else none
    salt := gensalt }

/-- `get_hasher` (hashers.py lines 70-92) restricted to string arguments,
over an already-loaded registry list (`load_hashers` builds `HASHERS` as a
dict keyed by algorithm — later entries win — and `PREFERRED_HASHER` as
the first list entry).  `none` models the `ValueError` for an unknown
algorithm and the `IndexError` for an empty configured list. -/
def get_hasher (hashers : List Hasher) (algorithm : Str) : Option Hasher :=
  if algorithm = pyStr "default" then hashers.head?
  else hashers.reverse.find? (fun h => h.algorithm == algorithm)

/-- The algorithm-detection step of `check_password` (hashers.py lines
36-40): a 32-character encoded value without `'$'` is legacy bare MD5;
otherwise the tag is the prefix before the first `'$'`. -/
def detect_hasher (hashers : List Hasher) (encoded : Str) : Option Hasher :=
  if encoded.length = 32 ∧ '$' ∉ encoded then get_hasher hashers (pyStr "md5")
  else get_hasher hashers (encoded.takeWhile (fun c => c ≠ '$'))

/-- `check_password` (hashers.py lines 20-46).  The result pairs the
returned boolean with the number of times `setter` was invoked. -/
def check_password (hashers : List Hasher) (password encoded : Option Str)
    (setterProvided : Bool) (preferred : Str) : Option (Bool × Nat) :=
  match password, encoded with
  | some p, some e =>
    if p = [] ∨ is_password_usable (some e) = false then some (false, 0)
    else do
      let pref ← get_hasher hashers preferred
      let hasher ← detect_hasher hashers e
      let must_update := hasher.algorithm ≠ pref.algorithm
      let is_correct ← hasher.verify p e
      pure (is_correct,
        if setterProvided && is_correct && must_update then 1 else 0)
  | _, _ => some (false, 0)

/-- `make_password` (hashers.py lines 49-67); a `none` password models
Python `None`. -/
def make_password (hashers : List Hasher) (password : Option Str)
    (salt : Option Str) (hasher : Str) : Option Str :=
  match password with
  | none => some UNUSABLE_PASSWORD
  | some p =>
    if p = [] then some UNUSABLE_PASSWORD
    else do
      let h ← get_hasher hashers hasher
      let s := match salt with
        | none => h.salt
        | some s0 => if s0 = [] then h.salt else s0
      h.encode p s

/-! ## `django.core.signing` -/

/-- The exception taxonomy of signing.py: `BadSignature`, its subclass
`SignatureExpired`, and the remaining stdlib exceptions (`ValueError`,
`AttributeError`, ...) that `unsign`/`loads` can propagate. -/
inductive SigErr where
  | badSignature : SigErr
  | signatureExpired : SigErr
  | valueError : SigErr
  | attributeError : SigErr
deriving DecidableEq

/-- Models the Python class hierarchy: `SignatureExpired` is a subclass of
`BadSignature` (signing.py lines 46-57), so both are caught by an
`except BadSignature`. -/
def isBadSignatureClass : SigErr → Bool
  | .badSignature => true
  | .signatureExpired => true
  | .valueError => false
  | .attributeError => false

/-- The stdlib-backed primitives of signing.py: `base64_hmac(value, key)`
(urlsafe base64 of an HMAC-SHA1 digest, lines 69-70) and
`sha_constructor(x).hexdigest()` (line 144). -/
structure SignPrims where
  base64_hmac : Str → Str → Str
  sha_hexdigest : Str → Str

/-- `Signer.signature` (signing.py lines 142-145): derive a per-call key
`sha(salt + 'signer' + key).hexdigest()` and HMAC the value with it. -/
def signatureOf (P : SignPrims) (key salt value : Str) : Str :=
  P.base64_hmac value (P.sha_hexdigest (salt ++ pyStr "signer" ++ key))

/-- `Signer.sign` (signing.py lines 147-149). -/
def signer_sign (P : SignPrims) (key : Str) (sep : Char) (value salt : Str) : Str :=
  value ++ sep :: signatureOf P key salt value

/-- Python's `s.rsplit(sep, 1)` when `sep` occurs in `s`: the part before
the last separator and the part after it. -/
def rsplit1 (sep : Char) (s : Str) : Str × Str :=
  (s.take (s.length - (s.reverse.takeWhile (fun c => c ≠ sep)).length - 1),
   (s.reverse.takeWhile (fun c => c ≠ sep)).reverse)

/-- `Signer.unsign` (signing.py lines 151-162). -/
def signer_unsign (P : SignPrims) (key : Str) (sep : Char)
    (signed_value salt : Str) : Except SigErr Str :=
  if sep ∈ signed_value then
    if constant_time_compare (rsplit1 sep signed_value).2
        (signatureOf P key salt (rsplit1 sep signed_value).1) then
      .ok (rsplit1 sep signed_value).1
    else .error .badSignature
  else .error .badSignature

/-- The attribute lookup `baseconv.base62.from_int`, as evaluated by
`TimestampSigner.timestamp` (signing.py line 167).  `BaseConverter`
(baseconv.py lines 47-89) defines only `encode`, `decode` and `convert` —
there is no `from_int` method on the class or the `base62` instance — so
the lookup raises `AttributeError` on every call; `none` models that. -/
def base62_from_int (_i : Int) : Option Str := none

/-- The attribute lookup `baseconv.base62.to_int`, as evaluated by
`TimestampSigner.unsign` (signing.py line 176).  Like `from_int`, no
`to_int` method exists on `BaseConverter`, so the lookup raises
`AttributeError` on every call; `none` models that. -/
def base62_to_int (_s : Str) : Option Int := none

/-- `TimestampSigner.sign` (signing.py lines 169-171); `now` is the value
of `int(time.time())`.  `self.timestamp()` evaluates
`baseconv.base62.from_int`, so a `none` result (the `AttributeError`)
propagates out of `sign`. -/
def timestamp_sign (P : SignPrims) (key : Str) (sep : Char) (now : Int)
    (value salt : Str) : Option Str :=
  (base62_from_int now).map (fun ts =>
    let v := value ++ sep :: ts
    v ++ sep :: signatureOf P key salt v)

/-- `TimestampSigner.unsign` (signing.py lines 173-183); `now2` is the
value of `time.time()` at unsign time.  After `Signer.unsign` succeeds,
`.rsplit(self.sep, 1)` is tuple-unpacked into two names (`ValueError` when
the separator is absent from the recovered value), and then
`baseconv.base62.to_int(timestamp)` is evaluated — `AttributeError`, see
`base62_to_int` — before any `max_age` comparison. -/
def timestamp_unsign (P : SignPrims) (key : Str) (sep : Char) (now2 : Int)
    (signed salt : Str) (max_age : Option Int) : Except SigErr Str := do
  let v ← signer_unsign P key sep signed salt
  if sep ∈ v then
    match base62_to_int (rsplit1 sep v).2 with
    | none => .error .attributeError
    | some t =>
      match max_age with
      | none => .ok (rsplit1 sep v).1
      | some m =>
        if now2 - t > m then .error .signatureExpired
        else .ok (rsplit1 sep v).1
  else .error .valueError

/-- `simplejson.dumps(obj, separators=(',', ':'))` and
`simplejson.loads`, abstracted over the value type. -/
structure JsonCodec (α : Type) where
  ser : α → Str
  des : Str → Option α

/-- `zlib.compress` / `zlib.decompress`. -/
structure ZlibPrims where
  comp : Str → Str
  decomp : Str → Str

/-- `b64_encode` / `b64_decode` (signing.py lines 60-66): urlsafe base64
without padding; decoding can raise (`none`). -/
structure B64Codec where
  enc : Str → Str
  dec : Str → Option Str

/-- `dumps` (signing.py lines 89-116).  The final step is
`TimestampSigner(key).sign(base64d, salt=salt)`, so the `AttributeError`
raised inside `sign` (see `timestamp_sign`) propagates out of `dumps`. -/
def signing_dumps {α : Type} (J : JsonCodec α) (Z : ZlibPrims) (B : B64Codec)
    (P : SignPrims) (key : Str) (salt : Str) (compress : Bool) (now : Int)
    (obj : α) : Option Str :=
  let json := J.ser obj
  let step :=
    if compress then
      let compressed := Z.comp json
      if (compressed.length : Int) < (json.length : Int) - 1 then
        (compressed, true)
      else (json, false)
    else (json, false)
  let base64d := B.enc step.1
  let base64d2 := if step.2 then '.' :: base64d else base64d
  timestamp_sign P key ':' now base64d2 salt

/-- `loads` (signing.py lines 119-134).  Note the source binds
`jsond = zlib.decompress(json)` in the compressed branch and then returns
`simplejson.loads(json)` — the decompressed value is computed and
discarded; the translation preserves this. -/
def signing_loads {α : Type} (J : JsonCodec α) (Z : ZlibPrims) (B : B64Codec)
    (P : SignPrims) (key : Str) (salt : Str) (max_age : Option Int)
    (now2 : Int) (s : Str) : Except SigErr α := do
  let base64d ← timestamp_unsign P key ':' now2 s salt max_age
  match base64d with
  | [] => .error .valueError
  | c0 :: rest =>
    match B.dec (if c0 = '.' then rest else c0 :: rest) with
    | none => .error .valueError
    | some json =>
      if c0 = '.' then
        let _jsond := Z.decomp json
        match J.des json with
        | some o => .ok o
        | none => .error .valueError
      else
        match J.des json with
        | some o => .ok o
        | none => .error .valueError

/-! ## Concrete instances used by the evaluation witnesses -/

/-- A concrete stand-in for the HMAC primitive (deterministic, output free
of the separator character), used to evaluate the signing layer on
concrete inputs. -/
def witnessPrims : SignPrims :=
  { base64_hmac := fun _ _ => pyStr "SIG", sha_hexdigest := fun _ => pyStr "KEY" }

/-- A concrete serializable value type for exercising `dumps`/`loads`:
`n` is rendered as `n + 2` copies of `'a'`. -/
def witnessJson : JsonCodec Nat :=
  { ser := fun n => List.replicate (n + 2) 'a'
    des := fun s =>
      if s.length ≥ 2 ∧ s.all (fun c => c = 'a') then some (s.length - 2)
      else none }

/-- A concrete compressor that shrinks every payload to one byte whose
output is not valid for `witnessJson.des`. -/
def witnessZlib : ZlibPrims :=
  { comp := fun _ => pyStr "z", decomp := fun _ => pyStr "aaaaaaaaa" }

/-- A concrete invertible base64 stand-in whose output never starts with
`'.'`. -/
def witnessB64 : B64Codec :=
  { enc := fun s => 'b' :: s
    dec := fun s => if s.head? = some 'b' then some s.tail else none }

/-- A concrete stand-in for the SHA1 hex digest. -/
def witnessSha1 (s : Str) : Str := s

/-- A concrete loaded registry: preferred SHA1, then legacy MD5. -/
def witnessRegistry : List Hasher :=
  [SHA1PasswordHasher witnessSha1 (pyStr "seasalt"),
   MD5PasswordHasher]

/-! # Theorems -/

/-! ## Constant-time compare -/

theorem char_toNat_inj {a b : Char} (h : a.toNat = b.toNat) : a = b := by
  have := congrArg Char.ofNat h
  rwa [Char.ofNat_toNat, Char.ofNat_toNat] at this

theorem nat_or_eq_zero_iff (m n : Nat) : m ||| n = 0 ↔ m = 0 ∧ n = 0 := by
  constructor
  · intro h
    have hb : ∀ i, (m.testBit i || n.testBit i) = false := by
      intro i
      rw [← Nat.testBit_or, h, Nat.zero_testBit]
    constructor
    · refine Nat.eq_of_testBit_eq fun i => ?_
      rw [Nat.zero_testBit]
      exact (Bool.or_eq_false_iff.mp (hb i)).1
    · refine Nat.eq_of_testBit_eq fun i => ?_
      rw [Nat.zero_testBit]
      exact (Bool.or_eq_false_iff.mp (hb i)).2
  · rintro ⟨rfl, rfl⟩
    rfl

theorem ctc_foldl_init (l : List (Char × Char)) (r : Nat) :
    l.foldl (fun result xy => result ||| (xy.1.toNat ^^^ xy.2.toNat)) r =
      r ||| l.foldl (fun result xy => result ||| (xy.1.toNat ^^^ xy.2.toNat)) 0 := by
  induction l generalizing r with
  | nil => simp
  | cons a l ih =>
    simp only [List.foldl_cons]
    rw [ih, ih (0 ||| _)]
    simp [Nat.or_assoc]

theorem ctc_foldl_eq_zero (l : List (Char × Char)) :
    l.foldl (fun result xy => result ||| (xy.1.toNat ^^^ xy.2.toNat)) 0 = 0 ↔
      ∀ xy ∈ l, xy.1 = xy.2 := by
  induction l with
  | nil => simp
  | cons a l ih =>
    simp only [List.foldl_cons, List.mem_cons]
    rw [ctc_foldl_init]
    rw [nat_or_eq_zero_iff]
    constructor
    · rintro ⟨h1, h2⟩
      have hxor : a.1.toNat ^^^ a.2.toNat = 0 := by
        simpa using h1
      have := Nat.xor_eq_zero.mp hxor
      exact fun xy hxy => hxy.elim (fun he => he ▸ char_toNat_inj this) (ih.mp h2 xy)
    · intro h
      refine ⟨?_, ih.mpr fun xy hxy => h xy (Or.inr hxy)⟩
      have : a.1 = a.2 := h a (Or.inl rfl)
      simp [this, Nat.xor_self]

theorem zip_forall_eq {a b : Str} (hlen : a.length = b.length)
    (h : ∀ xy ∈ List.zip a b, xy.1 = xy.2) : a = b := by
  induction a generalizing b with
  | nil => cases b with
    | nil => rfl
    | cons y ys => simp at hlen
  | cons x xs ih =>
    cases b with
    | nil => simp at hlen
    | cons y ys =>
      simp only [List.zip_cons_cons, List.mem_cons] at h
      have hxy : x = y := h (x, y) (Or.inl rfl)
      have : xs = ys := by
        refine ih (by simpa using hlen) fun xy hxy => h xy (Or.inr hxy)
      rw [hxy, this]

theorem mem_zip_self {α : Type} (l : List α) :
    ∀ xy ∈ List.zip l l, xy.1 = xy.2 := by
  induction l with
  | nil => simp
  | cons x xs ih =>
    intro xy hxy
    simp only [List.zip_cons_cons, List.mem_cons] at hxy
    rcases hxy with h | h
    · rw [h]
    · exact ih xy h

/-- Core correctness of the comparator, shared by the hasher proofs. -/
theorem ctc_iff_eq (a b : Str) : constant_time_compare a b = true ↔ a = b := by
  unfold constant_time_compare
  by_cases hlen : a.length = b.length
  · simp only [hlen, ne_eq, not_true_eq_false, if_false, beq_iff_eq]
    constructor
    · intro h
      exact zip_forall_eq hlen ((ctc_foldl_eq_zero _).mp h)
    · rintro rfl
      exact (ctc_foldl_eq_zero _).mpr (mem_zip_self a)
  · simp only [ne_eq, hlen, not_false_eq_true, if_true]
    constructor
    · intro h
      exact absurd h (by simp)
    · intro h
      exact absurd (congrArg List.length h) hlen

/-! ## Splitting helpers -/

theorem takeWhile_append_over {p : Char → Bool} {sep : Char} {a : Str} (b : Str)
    (ha : ∀ c ∈ a, p c = true) (hs : p sep = false) :
    (a ++ sep :: b).takeWhile p = a := by
  induction a with
  | nil => simp [List.takeWhile_cons, hs]
  | cons x xs ih =>
    have hx : p x = true := ha x (List.mem_cons_self x xs)
    simp only [List.cons_append, List.takeWhile_cons, hx, if_true]
    rw [ih fun c hc => ha c (List.mem_cons_of_mem x hc)]

theorem dropWhile_append_over {p : Char → Bool} {sep : Char} {a : Str} (b : Str)
    (ha : ∀ c ∈ a, p c = true) (hs : p sep = false) :
    (a ++ sep :: b).dropWhile p = sep :: b := by
  induction a with
  | nil => simp [List.dropWhile_cons, hs]
  | cons x xs ih =>
    have hx : p x = true := ha x (List.mem_cons_self x xs)
    simp only [List.cons_append, List.dropWhile_cons, hx, if_true]
    exact ih fun c hc => ha c (List.mem_cons_of_mem x hc)

theorem splitFirst_append {sep : Char} {a : Str} (b : Str) (ha : sep ∉ a) :
    splitFirst sep (a ++ sep :: b) = some (a, b) := by
  unfold splitFirst
  have hmem : sep ∈ a ++ sep :: b := List.mem_append_right a (List.mem_cons_self sep b)
  rw [if_pos hmem]
  rw [takeWhile_append_over b (fun c hc => by
      simp only [decide_eq_true_eq]
      exact fun h => ha (h ▸ hc)) (by simp)]
  rw [dropWhile_append_over b (fun c hc => by
      simp only [decide_eq_true_eq]
      exact fun h => ha (h ▸ hc)) (by simp)]
  rfl

theorem rsplit1_append {sep : Char} (a : Str) {b : Str} (hb : sep ∉ b) :
    rsplit1 sep (a ++ sep :: b) = (a, b) := by
  unfold rsplit1
  have hrev : (a ++ sep :: b).reverse = b.reverse ++ sep :: a.reverse := by
    simp
  have ht : (a ++ sep :: b).reverse.takeWhile (fun c => c ≠ sep) = b.reverse := by
    rw [hrev]
    exact takeWhile_append_over a.reverse
      (fun c hc => by
        simp only [decide_eq_true_eq]
        exact fun h => hb (h ▸ (List.mem_reverse.mp hc))) (by simp)
  rw [ht, List.reverse_reverse]
  have hlen : (a ++ sep :: b).length - b.reverse.length - 1 = a.length := by
    simp only [List.length_append, List.length_reverse, List.length_cons]
    omega
  rw [hlen]
  rw [List.take_append_of_le_length (Nat.le_refl _), List.take_length]

/-! ## Base conversion -/

theorem toBaseGo_ofDigits {b : Nat} (hb : 2 ≤ b) :
    ∀ fuel x, x ≤ fuel → Nat.ofDigits b (toBaseGo b fuel x) = x := by
  intro fuel
  induction fuel with
  | zero =>
    intro x hx
    interval_cases x
    simp [toBaseGo]
  | succ f ih =>
    intro x hx
    by_cases h0 : x = 0
    · simp [toBaseGo, h0]
    · have hdiv : x / b ≤ f := by
        have : x / b < x := Nat.div_lt_self (Nat.pos_of_ne_zero h0) (by omega)
        omega
      simp only [toBaseGo, h0, if_false]
      rw [Nat.ofDigits_cons, ih _ hdiv]
      have := Nat.mod_add_div x b
      omega

theorem toBaseGo_lt {b : Nat} (hb : 0 < b) :
    ∀ fuel x, ∀ d ∈ toBaseGo b fuel x, d < b := by
  intro fuel
  induction fuel with
  | zero => intro x d hd; simp [toBaseGo] at hd
  | succ f ih =>
    intro x d hd
    by_cases h0 : x = 0
    · simp [toBaseGo, h0] at hd
    · simp only [toBaseGo, h0, if_false, List.mem_cons] at hd
      rcases hd with h | h
      · exact h ▸ Nat.mod_lt x hb
      · exact ih _ d h

theorem toBaseGo_ne_nil {b : Nat} {fuel x : Nat} (h0 : x ≠ 0) (hf : x ≤ fuel) :
    toBaseGo b fuel x ≠ [] := by
  cases fuel with
  | zero => omega
  | succ f => simp [toBaseGo, h0]

theorem indexIn_eq_none {c : Char} {l : Str} : indexIn c l = none ↔ c ∉ l := by
  induction l with
  | nil => simp [indexIn]
  | cons d rest ih =>
    by_cases hd : d = c
    · simp [indexIn, hd]
    · simp only [indexIn, hd, if_false, List.mem_cons]
      cases h : indexIn c rest with
      | none =>
        simp only [Option.map_none', true_iff]
        rintro (h1 | h1)
        · exact hd h1.symm
        · exact (ih.mp h) h1
      | some e =>
        simp only [Option.map_some']
        constructor
        · intro hc
          exact absurd hc (by simp)
        · intro hnot
          exact absurd h (by
            rw [ih.mpr fun hc => hnot (Or.inr hc)]
            simp)

theorem indexIn_getElem {l : Str} (hnd : l.Nodup) (d : Nat) (hd : d < l.length) :
    indexIn l[d] l = some d := by
  induction l generalizing d with
  | nil => simp at hd
  | cons x xs ih =>
    rw [List.nodup_cons] at hnd
    obtain ⟨hx, hxs⟩ := hnd
    cases d with
    | zero => simp [indexIn]
    | succ d' =>
      have hd' : d' < xs.length := by simpa using hd
      have hget : (x :: xs)[d' + 1] = xs[d'] := by simp
      rw [hget]
      have hne : x ≠ xs[d'] := by
        intro h
        exact hx (h ▸ List.getElem_mem hd')
      simp only [indexIn, hne, if_false]
      rw [ih hxs d' hd']
      rfl

theorem parseLoop_append (f : Str) (x : Nat) (s1 s2 : Str) :
    parseLoop f x (s1 ++ s2) =
      (parseLoop f x s1).bind (fun y => parseLoop f y s2) := by
  induction s1 generalizing x with
  | nil => simp [parseLoop]
  | cons c rest ih =>
    simp only [List.cons_append, parseLoop]
    cases indexIn c f with
    | none => rfl
    | some d => exact ih _

theorem parseLoop_none {f : Str} {s : Str} {c : Char} (hc : c ∈ s) (hf : c ∉ f) :
    ∀ x, parseLoop f x s = none := by
  induction s with
  | nil => simp at hc
  | cons d rest ih =>
    intro x
    rcases List.mem_cons.mp hc with h | h
    · have : indexIn d f = none := indexIn_eq_none.mpr (h ▸ hf)
      simp [parseLoop, this]
    · simp only [parseLoop]
      cases hidx : indexIn d f with
      | none => rfl
      | some e => exact ih h _

theorem parseLoop_map_reverse {digits : Str} (hnd : digits.Nodup) :
    ∀ (ds : List Nat), (∀ d ∈ ds, d < digits.length) → ∀ x,
      parseLoop digits x ((ds.map (fun d => digits.getD d ' ')).reverse) =
        some (x * digits.length ^ ds.length + Nat.ofDigits digits.length ds) := by
  intro ds
  induction ds with
  | nil =>
    intro _ x
    simp [parseLoop, Nat.ofDigits_nil]
  | cons a t ih =>
    intro hlt x
    have ha : a < digits.length := hlt a (List.mem_cons_self a t)
    simp only [List.map_cons, List.reverse_cons]
    rw [parseLoop_append, ih (fun d hd => hlt d (List.mem_cons_of_mem a hd)) x]
    simp only [Option.some_bind]
    rw [List.getD_eq_getElem digits ' ' ha]
    simp only [parseLoop, indexIn_getElem hnd a ha]
    rw [Nat.ofDigits_cons]
    congr 1
    simp only [List.length_cons]
    ring

theorem parse_baseLoop {digits : Str} (hnd : digits.Nodup)
    (hb : 2 ≤ digits.length) (x : Nat) :
    parseLoop digits 0 (baseLoop digits x) = some x := by
  unfold baseLoop
  rw [parseLoop_map_reverse hnd _ (toBaseGo_lt (by omega) _ _) 0]
  rw [toBaseGo_ofDigits hb x x (Nat.le_refl x)]
  simp

theorem baseLoop_chars {digits : Str} {x : Nat} (hb : 0 < digits.length) :
    ∀ c ∈ baseLoop digits x, c ∈ digits := by
  unfold baseLoop
  intro c hc
  rw [List.mem_reverse] at hc
  obtain ⟨d, hd, rfl⟩ := List.mem_map.mp hc
  have hlt : d < digits.length := toBaseGo_lt hb _ _ d hd
  rw [List.getD_eq_getElem digits ' ' hlt]
  exact List.getElem_mem hlt

theorem baseLoop_ne_nil {digits : Str} {x : Nat} (hx : x ≠ 0) :
    baseLoop digits x ≠ [] := by
  unfold baseLoop
  intro h
  rw [List.reverse_eq_nil_iff, List.map_eq_nil_iff] at h
  exact toBaseGo_ne_nil hx (Nat.le_refl x) h

theorem dec_nodup : decimal_digits.Nodup := by decide

theorem dec_len : decimal_digits.length = 10 := by decide

theorem natStr_chars {n : Nat} : ∀ c ∈ natStr n, c ∈ decimal_digits := by
  unfold natStr
  by_cases h : n = 0
  · simp only [h, if_true]
    decide
  · simp only [h, if_false]
    exact baseLoop_chars (by decide)

theorem natStr_ne_nil (n : Nat) : natStr n ≠ [] := by
  unfold natStr
  by_cases h : n = 0
  · simp [h, pyStr]
  · simp only [h, if_false]
    exact baseLoop_ne_nil h

theorem parse_natStr (n : Nat) : parseLoop decimal_digits 0 (natStr n) = some n := by
  unfold natStr
  by_cases h : n = 0
  · subst h
    decide
  · simp only [h, if_false]
    exact parse_baseLoop dec_nodup (by decide) n

theorem natStr_head_ne_dash {n : Nat} {ch : Char} {rest : Str}
    (h : natStr n = ch :: rest) : ch ≠ '-' := by
  have hmem : ch ∈ natStr n := h ▸ List.mem_cons_self ch rest
  have := natStr_chars ch hmem
  intro hc
  rw [hc] at this
  exact absurd this (by decide)

theorem pyInt_natStr (n : Nat) : pyInt (natStr n) = some (n : Int) := by
  obtain ⟨ch, rest, heq⟩ := List.exists_cons_of_ne_nil (natStr_ne_nil n)
  rw [heq]
  simp only [pyInt, natStr_head_ne_dash heq, if_false]
  rw [← heq, parse_natStr]
  rfl

theorem pyInt_intStr (i : Int) : pyInt (intStr i) = some i := by
  unfold intStr
  by_cases hi : i < 0
  · simp only [hi, if_true]
    have hne : natStr i.natAbs ≠ [] := natStr_ne_nil _
    simp only [pyInt, if_pos rfl, hne, if_false]
    rw [parse_natStr]
    show some (-(i.natAbs : Int)) = some i
    congr 1
    omega
  · simp only [hi, if_false]
    rw [pyInt_natStr]
    exact congrArg some (Int.natAbs_of_nonneg (by omega))

theorem convert_notsign (c : BaseConverter) {ch : Char} {rest from_d to_d : Str}
    {x : Nat} (h : ch ≠ c.sign) (hp : parseLoop from_d 0 (ch :: rest) = some x) :
    c.convert (ch :: rest) from_d to_d =
      some (if x = 0 then [to_d.getD 0 ' '] else baseLoop to_d x) := by
  by_cases h0 : x = 0
  · simp [BaseConverter.convert, h, hp, h0]
  · simp [BaseConverter.convert, h, hp, h0]

theorem convert_sign (c : BaseConverter) {rest from_d to_d : Str} {x : Nat}
    (hp : parseLoop from_d 0 rest = some x) :
    c.convert (c.sign :: rest) from_d to_d =
      some (if x = 0 then [to_d.getD 0 ' '] else c.sign :: baseLoop to_d x) := by
  by_cases h0 : x = 0
  · simp [BaseConverter.convert, hp, h0]
  · simp [BaseConverter.convert, hp, h0]

theorem encode_nonneg {digs : Str} {i : Int} (hi : 0 ≤ i) :
    BaseConverter.encode { digits := digs, sign := '-' } i =
      some (if i = 0 then [digs.getD 0 ' '] else baseLoop digs i.natAbs) := by
  unfold BaseConverter.encode intStr
  have hii : ¬ i < 0 := by omega
  simp only [hii, if_false]
  obtain ⟨ch, rest, heq⟩ := List.exists_cons_of_ne_nil (natStr_ne_nil i.natAbs)
  rw [heq]
  have hch : ch ≠ ({ digits := digs, sign := '-' } : BaseConverter).sign :=
    natStr_head_ne_dash heq
  rw [convert_notsign _ hch (by rw [← heq]; exact parse_natStr _)]
  congr 1
  by_cases h0 : i = 0
  · simp [h0]
  · have hm : i.natAbs ≠ 0 := by omega
    simp [h0, hm]

theorem encode_neg {digs : Str} {i : Int} (hi : i < 0) :
    BaseConverter.encode { digits := digs, sign := '-' } i =
      some ('-' :: baseLoop digs i.natAbs) := by
  unfold BaseConverter.encode intStr
  simp only [hi, if_true]
  rw [show ('-' : Char) = ({ digits := digs, sign := '-' } : BaseConverter).sign from rfl]
  rw [convert_sign _ (parse_natStr _)]
  have hm : i.natAbs ≠ 0 := by omega
  simp [hm]

theorem decode_encode_int {digs : Str} (hnd : digs.Nodup) (hb : 2 ≤ digs.length)
    (hdash : '-' ∉ digs) (i : Int) :
    (BaseConverter.encode { digits := digs, sign := '-' } i).bind
      (BaseConverter.decode { digits := digs, sign := '-' }) = some i := by
  rcases lt_trichotomy i 0 with hi | hi | hi
  · rw [encode_neg hi]
    have hm : i.natAbs ≠ 0 := by omega
    simp only [Option.some_bind]
    unfold BaseConverter.decode
    rw [show ('-' : Char) = ({ digits := digs, sign := '-' } : BaseConverter).sign from rfl]
    rw [convert_sign _ (parse_baseLoop hnd hb _)]
    simp only [hm, if_false, Option.some_bind]
    have hrepr : intStr i = '-' :: baseLoop decimal_digits i.natAbs := by
      unfold intStr natStr
      simp [hi, hm]
    rw [show (({ digits := digs, sign := '-' } : BaseConverter).sign ::
        baseLoop decimal_digits i.natAbs) = intStr i from hrepr ▸ rfl]
    exact pyInt_intStr i
  · subst hi
    rw [encode_nonneg (Int.le_refl 0)]
    have hlen0 : 0 < digs.length := by omega
    have e0 : (if (0 : Int) = 0 then [List.getD digs 0 ' ']
        else baseLoop digs (Int.natAbs 0)) = [digs[0]] := by
      rw [List.getD_eq_getElem digs ' ' hlen0]
      simp
    rw [e0, Option.some_bind]
    unfold BaseConverter.decode
    have hch : digs[0] ≠ ({ digits := digs, sign := '-' } : BaseConverter).sign := by
      intro h
      have h' : digs[0] = '-' := h
      exact hdash (h' ▸ List.getElem_mem hlen0)
    have hp : parseLoop digs 0 [digs[0]] = some 0 := by
      simp [parseLoop, indexIn_getElem hnd 0 hlen0]
    rw [convert_notsign _ hch hp]
    decide
  · have hm : i.natAbs ≠ 0 := by omega
    rw [encode_nonneg (by omega)]
    have h0 : ¬ i = 0 := by omega
    simp only [h0, if_false, Option.some_bind]
    unfold BaseConverter.decode
    obtain ⟨ch, rest, heq⟩ := List.exists_cons_of_ne_nil (@baseLoop_ne_nil digs i.natAbs hm)
    rw [heq]
    have hch : ch ≠ ({ digits := digs, sign := '-' } : BaseConverter).sign := by
      intro h
      have h' : ch = '-' := h
      exact hdash (h' ▸ baseLoop_chars (by omega) ch (heq ▸ List.mem_cons_self ch rest))
    rw [convert_notsign _ hch (by rw [← heq]; exact parse_baseLoop hnd hb _)]
    simp only [hm, if_false, Option.some_bind]
    have hns : natStr i.natAbs = baseLoop decimal_digits i.natAbs := by
      unfold natStr
      simp [hm]
    rw [← hns, pyInt_natStr]
    exact congrArg some (Int.natAbs_of_nonneg (by omega))

theorem base62_nodup : BASE62_ALPHABET.Nodup := by decide

theorem decode_none_of_bad_char (c : BaseConverter) {s : Str} {ch : Char}
    (hch : ch ∈ (if s.head? = some c.sign then s.tail else s))
    (hnot : ch ∉ c.digits) : c.decode s = none := by
  match s with
  | [] =>
    rfl
  | c0 :: rest =>
    unfold BaseConverter.decode
    by_cases hc0 : c0 = c.sign
    · have hch' : ch ∈ rest := by
        simpa [hc0] using hch
      simp [BaseConverter.convert, hc0, parseLoop_none hch' hnot]
    · have hch' : ch ∈ c0 :: rest := by
        simpa [hc0] using hch
      simp [BaseConverter.convert, hc0, parseLoop_none hch' hnot]

/-! ## Signer / TimestampSigner -/

theorem except_ok_bind {ε α β : Type} (a : α) (f : α → Except ε β) :
    (Except.ok a : Except ε α) >>= f = f a := rfl

theorem signer_unsign_sign (P : SignPrims) (key : Str) (sep : Char)
    (value salt : Str) (hsep : sep ∉ signatureOf P key salt value) :
    signer_unsign P key sep (signer_sign P key sep value salt) salt = .ok value := by
  unfold signer_sign signer_unsign
  have hmem : sep ∈ value ++ sep :: signatureOf P key salt value :=
    List.mem_append_right _ (List.mem_cons_self _ _)
  rw [if_pos hmem, rsplit1_append value hsep]
  rw [if_pos ((ctc_iff_eq _ _).mpr rfl)]

theorem except_error_bind {ε α β : Type} (e : ε) (f : α → Except ε β) :
    (Except.error e >>= f) = Except.error e := rfl

/-- `Signer.unsign` either recovers a value or raises `BadSignature`:
the two `raise BadSignature(...)` statements are its only exits besides
the `return`. -/
theorem signer_unsign_cases (P : SignPrims) (key : Str) (sep : Char)
    (signed salt : Str) :
    (∃ v, signer_unsign P key sep signed salt = .ok v) ∨
      signer_unsign P key sep signed salt = .error .badSignature := by
  unfold signer_unsign
  by_cases hmem : sep ∈ signed
  · rw [if_pos hmem]
    by_cases hctc : constant_time_compare (rsplit1 sep signed).2
        (signatureOf P key salt (rsplit1 sep signed).1) = true
    · exact Or.inl ⟨_, by rw [if_pos hctc]⟩
    · exact Or.inr (by rw [if_neg hctc])
  · exact Or.inr (by rw [if_neg hmem])

/-- `TimestampSigner.unsign` never returns: every path ends in
`BadSignature` (from `Signer.unsign`), `ValueError` (tuple-unpacking a
separator-free value) or the `AttributeError` from
`baseconv.base62.to_int`. -/
theorem timestamp_unsign_cases (P : SignPrims) (key : Str) (sep : Char)
    (now2 : Int) (signed salt : Str) (max_age : Option Int) :
    timestamp_unsign P key sep now2 signed salt max_age =
        .error .badSignature ∨
      timestamp_unsign P key sep now2 signed salt max_age =
        .error .valueError ∨
      timestamp_unsign P key sep now2 signed salt max_age =
        .error .attributeError := by
  unfold timestamp_unsign
  rcases signer_unsign_cases P key sep signed salt with ⟨v, hv⟩ | hv
  · rw [hv, except_ok_bind]
    by_cases hmem : sep ∈ v
    · rw [if_pos hmem]
      exact Or.inr (Or.inr rfl)
    · rw [if_neg hmem]
      exact Or.inr (Or.inl rfl)
  · rw [hv, except_error_bind]
    exact Or.inl rfl

/-! ## Hashers -/

theorem option_some_bind {α β : Type} (a : α) (f : α → Option β) :
    ((some a : Option α) >>= f) = f a := rfl

theorem parts_ne2 {a b h1 h2 : Str} (hne : h1 ≠ h2) :
    a ++ '$' :: (b ++ '$' :: h1) ≠ a ++ '$' :: (b ++ '$' :: h2) := by
  intro heq
  apply hne
  have h3 := List.append_inj_right heq rfl
  simp only [List.cons.injEq, true_and] at h3
  have h5 := List.append_inj_right h3 rfl
  simp only [List.cons.injEq, true_and] at h5
  exact h5

theorem ctc_false_of_ne {a b : Str} (h : a ≠ b) :
    constant_time_compare a b = false := by
  cases hb : constant_time_compare a b
  · rfl
  · exact absurd ((ctc_iff_eq _ _).mp hb) h

/-- `pbkdf2_encode` never returns: when both asserts pass, the call
`pbkdf2(password, salt, iterations, digest=self.digest)` raises
`TypeError`, and the asserts themselves raise otherwise. -/
theorem pbkdf2_encode_none (alg password salt : Str) (iterations : Int) :
    pbkdf2_encode alg password salt iterations = none := by
  unfold pbkdf2_encode
  by_cases hp : password = []
  · rw [if_pos hp]
  · rw [if_neg hp]
    by_cases hs : salt = [] ∨ '$' ∈ salt
    · rw [if_pos hs]
    · rw [if_neg hs]

/-- `pbkdf2_verify` never returns either: every surviving path calls
`self.encode`, which raises. -/
theorem pbkdf2_verify_none (alg password encoded : Str) :
    pbkdf2_verify alg password encoded = none := by
  unfold pbkdf2_verify
  cases h1 : splitFirst '$' encoded with
  | none => rfl
  | some p1 =>
    rw [option_some_bind]
    cases h2 : splitFirst '$' p1.2 with
    | none => rfl
    | some p2 =>
      rw [option_some_bind]
      cases h3 : splitFirst '$' p2.2 with
      | none => rfl
      | some p3 =>
        rw [option_some_bind]
        by_cases halg : p1.1 = alg
        · rw [if_pos halg]
          cases hn : pyInt p2.1 with
          | none => rfl
          | some n =>
            show (pbkdf2_encode alg password p3.1 n >>= fun encoded2 =>
              pure (constant_time_compare encoded encoded2)) = none
            rw [pbkdf2_encode_none]
            rfl
        · rw [if_neg halg]

theorem sha1_encode_pos (sha1hex : Str → Str) (password salt : Str)
    (hp : password ≠ []) (hs : salt ≠ []) (hds : '$' ∉ salt) :
    sha1_encode sha1hex password salt =
      some (pyStr "sha1" ++ '$' :: (salt ++ '$' :: sha1hex (salt ++ password))) := by
  unfold sha1_encode
  rw [if_neg hp, if_neg (not_or.mpr ⟨hs, hds⟩)]
  simp

theorem sha1_verify_run (sha1hex : Str → Str) (password p2 salt : Str)
    (hp2 : p2 ≠ []) (hs : salt ≠ []) (hds : '$' ∉ salt) :
    sha1_verify sha1hex p2
        (pyStr "sha1" ++ '$' :: (salt ++ '$' :: sha1hex (salt ++ password))) =
      some (constant_time_compare
        (pyStr "sha1" ++ '$' :: (salt ++ '$' :: sha1hex (salt ++ password)))
        (pyStr "sha1" ++ '$' :: (salt ++ '$' :: sha1hex (salt ++ p2)))) := by
  unfold sha1_verify
  have htag : '$' ∉ pyStr "sha1" := by decide
  rw [splitFirst_append (salt ++ '$' :: sha1hex (salt ++ password)) htag,
    option_some_bind]
  rw [splitFirst_append (sha1hex (salt ++ password)) hds, option_some_bind]
  rw [if_pos rfl]
  rw [sha1_encode_pos sha1hex p2 salt hp2 hs hds, option_some_bind]
  rfl

theorem hexOfBytes_len (bs : List Nat) : (hexOfBytes bs).length = 2 * bs.length := by
  induction bs with
  | nil => rfl
  | cons b rest ih =>
    simp only [hexOfBytes, List.flatMap_cons] at ih ⊢
    simp [ih]
    omega

theorem md5Bytes_len (msg : List Nat) : (md5Bytes msg).length = 16 := by
  simp [md5Bytes, leBytes4]

theorem md5hex_len (s : Str) : (md5hex s).length = 32 := by
  unfold md5hex
  rw [hexOfBytes_len, md5Bytes_len]

theorem md5hex_ne_unusable (s : Str) : md5hex s ≠ UNUSABLE_PASSWORD := by
  intro h
  have := congrArg List.length h
  rw [md5hex_len] at this
  exact absurd this (by decide)

theorem usable_of_ne {e : Str} (hu : e ≠ UNUSABLE_PASSWORD) :
    is_password_usable (some e) = true := by
  simp [is_password_usable, hu]

theorem check_password_run (reg : List Hasher) (p e : Str) (sp : Bool)
    (pref : Str) (hpref hdet : Hasher) (b : Bool)
    (hp : p ≠ []) (hu : e ≠ UNUSABLE_PASSWORD)
    (h1 : get_hasher reg pref = some hpref)
    (h2 : detect_hasher reg e = some hdet)
    (h3 : hdet.verify p e = some b) :
    check_password reg (some p) (some e) sp pref =
      some (b, if sp && b && decide (hdet.algorithm ≠ hpref.algorithm)
        then 1 else 0) := by
  simp only [check_password]
  rw [if_neg (not_or.mpr ⟨hp, by simp [usable_of_ne hu]⟩)]
  rw [h1, option_some_bind, h2, option_some_bind, h3, option_some_bind]
  rfl

theorem make_password_run (reg : List Hasher) (p : Str) (salt : Option Str)
    (alg : Str) (h : Hasher) (hp : p ≠ []) (hh : get_hasher reg alg = some h) :
    make_password reg (some p) salt alg =
      h.encode p (match salt with
        | none => h.salt
        | some s0 => if s0 = [] then h.salt else s0) := by
  simp only [make_password]
  rw [if_neg hp, hh, option_some_bind]

/-! ## Cost model of the comparison loop -/

theorem ctc_cost_fold_snd (l : List (Char × Char)) (init : Nat × Nat) :
    (l.foldl (fun (st : Nat × Nat) xy =>
      (st.1 ||| (xy.1.toNat ^^^ xy.2.toNat), st.2 + 1)) init).2 =
        init.2 + l.length := by
  induction l generalizing init with
  | nil => simp
  | cons a rest ih =>
    simp only [List.foldl_cons, List.length_cons]
    rw [ih]
    simp only []
    omega

theorem ctc_cost_fold_fst (l : List (Char × Char)) (init : Nat × Nat) :
    (l.foldl (fun (st : Nat × Nat) xy =>
      (st.1 ||| (xy.1.toNat ^^^ xy.2.toNat), st.2 + 1)) init).1 =
        l.foldl (fun result xy => result ||| (xy.1.toNat ^^^ xy.2.toNat)) init.1 := by
  induction l generalizing init with
  | nil => rfl
  | cons a rest ih =>
    simp only [List.foldl_cons]
    rw [ih]

/-- C6: `constant_time_compare(a, b)` returns `True` iff `a == b`, for all
string pairs, and returns `False` whenever the lengths differ. -/
theorem claim_C6_ctc_correct (a b : Str) :
    (constant_time_compare a b = true ↔ a = b) ∧
    (a.length ≠ b.length → constant_time_compare a b = false) := by
  refine ⟨ctc_iff_eq a b, fun hlen => ?_⟩
  unfold constant_time_compare
  rw [if_pos hlen]

theorem claim_C6_ctc_correct_witness :
    (constant_time_compare (pyStr "abc") (pyStr "abd") = true ↔
      pyStr "abc" = pyStr "abd") ∧
    constant_time_compare (pyStr "abc") (pyStr "ab") = false :=
  ⟨(claim_C6_ctc_correct (pyStr "abc") (pyStr "abd")).1,
   (claim_C6_ctc_correct (pyStr "abc") (pyStr "ab")).2 (by decide)⟩

/-- C9: on equal-length inputs the comparison loop performs exactly one
iteration per character pair — the iteration count equals the common
length, independently of the position and number of mismatches — and the
instrumented loop computes the same boolean as `constant_time_compare`. -/
theorem claim_C9_no_short_circuit (a b : Str) (hlen : a.length = b.length) :
    (constant_time_compare_cost a b).2 = a.length ∧
    (constant_time_compare_cost a b).1 = constant_time_compare a b := by
  unfold constant_time_compare_cost constant_time_compare
  rw [if_neg (by omega : ¬a.length ≠ b.length),
    if_neg (by omega : ¬a.length ≠ b.length)]
  constructor
  · simp only [ctc_cost_fold_snd]
    rw [List.length_zip]
    omega
  · simp only [ctc_cost_fold_fst]

theorem claim_C9_no_short_circuit_witness :
    (constant_time_compare_cost (pyStr "axc") (pyStr "ayz")).2 =
      (pyStr "axc").length ∧
    (constant_time_compare_cost (pyStr "axc") (pyStr "ayz")).1 =
      constant_time_compare (pyStr "axc") (pyStr "ayz") :=
  claim_C9_no_short_circuit (pyStr "axc") (pyStr "ayz") (by decide)

/-- C7 (counterexample to the claim as stated): (1) `base62.decode("-0")`
succeeds and returns 0 even though `'-'` is outside the digit alphabet,
so decoding does not reject every input containing an out-of-alphabet
character; (2) for the converter with (duplicate-free) alphabet `"0-"`
and the default `'-'` sign marker, `encode(1) = "-"` and
`decode("-") = 0`, so `decode(encode(1)) = 0 ≠ 1` — the round-trip law
does not hold for every alphabet with the default sign marker. -/
theorem claim_C7_counterexample :
    base62.decode (pyStr "-0") = some 0 ∧
    ('-' ∉ BASE62_ALPHABET) ∧
    (pyStr "0-").Nodup ∧
    BaseConverter.encode { digits := pyStr "0-", sign := '-' } 1 = some (pyStr "-") ∧
    BaseConverter.decode { digits := pyStr "0-", sign := '-' } (pyStr "-") = some 0 := by
  refine ⟨?_, by decide, by decide, ?_, ?_⟩ <;> decide

/-- C7 (amended): for every `BaseConverter` with the default `'-'` sign
marker whose digit alphabet has no duplicate characters, has at least two
characters, and does not contain the sign marker itself:
`decode(encode(n)) = n` for every integer `n` (positive, negative, zero),
and `decode` errors on any input string containing a character outside
the digit alphabet at any position other than a leading sign marker. -/
theorem claim_C7_baseconv_roundtrip (digits : Str) (hnd : digits.Nodup)
    (hb : 2 ≤ digits.length) (hdash : '-' ∉ digits) :
    (∀ i : Int,
      (BaseConverter.encode { digits := digits, sign := '-' } i).bind
        (BaseConverter.decode { digits := digits, sign := '-' }) = some i) ∧
    (∀ (s : Str) (ch : Char),
      ch ∈ (if s.head? = some '-' then s.tail else s) → ch ∉ digits →
        BaseConverter.decode { digits := digits, sign := '-' } s = none) := by
  constructor
  · exact decode_encode_int hnd hb hdash
  · intro s ch hch hnot
    exact decode_none_of_bad_char { digits := digits, sign := '-' } hch hnot

theorem claim_C7_baseconv_roundtrip_witness :
    (BaseConverter.encode { digits := BASE62_ALPHABET, sign := '-' } (-1234)).bind
      (BaseConverter.decode { digits := BASE62_ALPHABET, sign := '-' }) =
        some (-1234) ∧
    BaseConverter.decode { digits := BASE62_ALPHABET, sign := '-' }
      (pyStr "3z@") = none :=
  ⟨(claim_C7_baseconv_roundtrip BASE62_ALPHABET base62_nodup (by decide)
      (by decide)).1 (-1234),
   (claim_C7_baseconv_roundtrip BASE62_ALPHABET base62_nodup (by decide)
      (by decide)).2 (pyStr "3z@") '@' (by decide) (by decide)⟩

/-- C2 (refuted on this source): `TimestampSigner.sign` never returns a
signed value — `self.timestamp()` evaluates the nonexistent attribute
`baseconv.base62.from_int` (signing.py line 167; `BaseConverter` defines
only `encode`/`decode`/`convert`), raising `AttributeError` — and
`TimestampSigner.unsign` never returns a value and never raises
`SignatureExpired`: whenever the signature check passes it evaluates the
equally nonexistent `baseconv.base62.to_int` (signing.py line 176) before
any `max_age` comparison, so the claimed round trip and expiry behaviour
are unreachable. -/
theorem claim_C2_timestamp_signer :
    (∀ (P : SignPrims) (key : Str) (sep : Char) (now : Int)
        (value salt : Str),
      timestamp_sign P key sep now value salt = none) ∧
    (∀ (P : SignPrims) (key : Str) (sep : Char) (now2 : Int)
        (signed salt : Str) (max_age : Option Int),
      (∀ r, timestamp_unsign P key sep now2 signed salt max_age ≠ .ok r) ∧
      timestamp_unsign P key sep now2 signed salt max_age ≠
        .error .signatureExpired) := by
  constructor
  · intro P key sep now value salt
    rfl
  · intro P key sep now2 signed salt max_age
    rcases timestamp_unsign_cases P key sep now2 signed salt max_age
      with h | h | h <;>
    · rw [h]
      exact ⟨fun r hr => Except.noConfusion hr,
        fun hc => absurd (Except.error.inj hc) (by decide)⟩

/-- C1 (refuted on this source): `dumps` never returns — its final step
`TimestampSigner(key).sign(base64d, salt=salt)` raises the
`AttributeError` described at `base62_from_int` — and `loads` never
returns an object for any input, since `TimestampSigner.unsign` always
raises; in particular `loads(dumps(obj))` cannot equal `obj` for any
`obj`, compressed or not. -/
theorem claim_C1_dumps_loads :
    (∀ (α : Type) (J : JsonCodec α) (Z : ZlibPrims) (B : B64Codec)
        (P : SignPrims) (key salt : Str) (compress : Bool) (now : Int)
        (obj : α),
      signing_dumps J Z B P key salt compress now obj = none) ∧
    (∀ (α : Type) (J : JsonCodec α) (Z : ZlibPrims) (B : B64Codec)
        (P : SignPrims) (key salt : Str) (max_age : Option Int)
        (now2 : Int) (s : Str) (o : α),
      signing_loads J Z B P key salt max_age now2 s ≠ .ok o) := by
  constructor
  · intro α J Z B P key salt compress now obj
    rfl
  · intro α J Z B P key salt max_age now2 s o
    unfold signing_loads
    rcases timestamp_unsign_cases P key ':' now2 s salt max_age
      with h | h | h <;>
    · rw [h, except_error_bind]
      exact fun hc => Except.noConfusion hc

/-- C3 (PBKDF2 half refuted on this source): every call to the PBKDF2
hashers' `encode` and `verify` raises — hashers.py line 165 passes
`digest=self.digest` to `crypto.pbkdf2`, whose signature
(crypto.py line 66) has no `digest` parameter, so a `TypeError` is raised
before any hash is computed and no round trip exists — while the SHA1 and
MD5 variants do satisfy the claim: `verify(p, encode(p, salt)) = True`,
and `verify(p2, encode(p, salt)) = False` whenever the underlying digests
of `p2` and `p` differ. -/
theorem claim_C3_encode_verify (sha1hex : Str → Str) (password p2 salt : Str)
    (hp : password ≠ []) (hp2 : p2 ≠ [])
    (hs : salt ≠ []) (hds : '$' ∉ salt)
    (hsha1ne : sha1hex (salt ++ password) ≠ sha1hex (salt ++ p2))
    (hmd5ne : md5hex password ≠ md5hex p2) :
    (∀ (alg pw s : Str) (it : Int), pbkdf2_encode alg pw s it = none) ∧
    (∀ alg pw enc : Str, pbkdf2_verify alg pw enc = none) ∧
    (∀ e, sha1_encode sha1hex password salt = some e →
      sha1_verify sha1hex password e = some true ∧
      sha1_verify sha1hex p2 e = some false) ∧
    (∀ e, MD5PasswordHasher.encode password salt = some e →
      MD5PasswordHasher.verify password e = some true ∧
      MD5PasswordHasher.verify p2 e = some false) := by
  refine ⟨fun alg pw s it => pbkdf2_encode_none alg pw s it,
    fun alg pw enc => pbkdf2_verify_none alg pw enc, ?_, ?_⟩
  · intro e he
    rw [sha1_encode_pos sha1hex password salt hp hs hds] at he
    have he' := Option.some.inj he
    rw [← he']
    constructor
    · rw [sha1_verify_run sha1hex password password salt hp hs hds]
      exact congrArg some ((ctc_iff_eq _ _).mpr rfl)
    · rw [sha1_verify_run sha1hex password p2 salt hp2 hs hds]
      exact congrArg some (ctc_false_of_ne (parts_ne2 hsha1ne))
  · intro e he
    have he' : md5hex password = e := Option.some.inj he
    rw [← he']
    constructor
    · exact congrArg some ((ctc_iff_eq _ _).mpr rfl)
    · exact congrArg some (ctc_false_of_ne hmd5ne)

theorem claim_C3_encode_verify_witness :
    pbkdf2_encode (pyStr "pbkdf2_sha256") (pyStr "letmein")
        (pyStr "seasalt") 0 = none ∧
    pbkdf2_verify (pyStr "pbkdf2_sha256") (pyStr "letmein")
        (pyStr "pbkdf2_sha256$2000$seasalt$hash") = none ∧
    (MD5PasswordHasher.verify (pyStr "letmein")
        (md5hex (pyStr "letmein")) = some true ∧
      MD5PasswordHasher.verify (pyStr "x")
        (md5hex (pyStr "letmein")) = some false) := by
  have h := claim_C3_encode_verify witnessSha1 (pyStr "letmein") (pyStr "x")
    (pyStr "seasalt") (by decide) (by decide) (by decide) (by decide)
    (by decide) (by decide)
  exact ⟨h.1 (pyStr "pbkdf2_sha256") (pyStr "letmein") (pyStr "seasalt") 0,
    h.2.1 (pyStr "pbkdf2_sha256") (pyStr "letmein")
      (pyStr "pbkdf2_sha256$2000$seasalt$hash"),
    h.2.2.2 (md5hex (pyStr "letmein")) rfl⟩

/-- C4: for a usable encoded hash and non-empty password, `check_password`
with a setter returns the detected hasher's `verify` result, and invokes
the setter exactly once precisely when verification succeeds and the
detected algorithm differs from the preferred one. -/
theorem claim_C4_upgrade_on_verify (reg : List Hasher) (p e : Str)
    (pref : Str) (hpref hdet : Hasher) (b : Bool)
    (hp : p ≠ []) (hu : e ≠ UNUSABLE_PASSWORD)
    (h1 : get_hasher reg pref = some hpref)
    (h2 : detect_hasher reg e = some hdet)
    (h3 : hdet.verify p e = some b) :
    check_password reg (some p) (some e) true pref =
      some (b, if b = true ∧ hdet.algorithm ≠ hpref.algorithm then 1 else 0) := by
  rw [check_password_run reg p e true pref hpref hdet b hp hu h1 h2 h3]
  by_cases hb : b = true
  · by_cases ha : hdet.algorithm = hpref.algorithm
    · simp [hb, ha]
    · simp [hb, ha]
  · simp [hb, Bool.eq_false_iff.mpr hb]

theorem claim_C4_upgrade_on_verify_witness :
    check_password witnessRegistry (some (pyStr "letmein"))
        (some (pyStr "0d107d09f5bbe40cade3de5c71e9e9b7")) true
        (pyStr "default") = some (true, 1) ∧
    check_password witnessRegistry (some (pyStr "letmein"))
        (some (pyStr "sha1$seasalt$seasaltletmein")) true
        (pyStr "default") = some (true, 0) := by
  constructor
  · have h := claim_C4_upgrade_on_verify witnessRegistry (pyStr "letmein")
      (pyStr "0d107d09f5bbe40cade3de5c71e9e9b7") (pyStr "default")
      (SHA1PasswordHasher witnessSha1 (pyStr "seasalt"))
      MD5PasswordHasher true (by decide) (by decide) rfl rfl (by decide)
    rw [h]
    rw [if_pos ⟨rfl, by decide⟩]
  · have h := claim_C4_upgrade_on_verify witnessRegistry (pyStr "letmein")
      (pyStr "sha1$seasalt$seasaltletmein") (pyStr "default")
      (SHA1PasswordHasher witnessSha1 (pyStr "seasalt"))
      (SHA1PasswordHasher witnessSha1 (pyStr "seasalt")) true (by decide)
      (by decide) rfl rfl (by decide)
    rw [h]
    rw [if_neg (by simp)]

/-- C5: `make_password` returns the sentinel `"!"` for `None` and for the
empty password; `is_password_usable` is false for `None` and the sentinel
and true for any other string; `check_password` is false against the
sentinel for every password. -/
theorem claim_C5_unusable_sentinel (reg : List Hasher) (salt : Option Str)
    (alg : Str) (p : Option Str) (sp : Bool) (pref : Str) (s : Str)
    (hs : s ≠ pyStr "!") :
    make_password reg none salt alg = some (pyStr "!") ∧
    make_password reg (some []) salt alg = some (pyStr "!") ∧
    is_password_usable none = false ∧
    is_password_usable (some (pyStr "!")) = false ∧
    is_password_usable (some s) = true ∧
    check_password reg p (some (pyStr "!")) sp pref = some (false, 0) := by
  refine ⟨rfl, by simp [make_password, UNUSABLE_PASSWORD], rfl, by decide, usable_of_ne hs, ?_⟩
  cases p with
  | none => rfl
  | some p' =>
    simp only [check_password]
    rw [if_pos (Or.inr (by decide))]

theorem claim_C5_unusable_sentinel_witness :
    is_password_usable (some (pyStr "abc")) = true ∧
    check_password witnessRegistry (some (pyStr "letmein")) (some (pyStr "!"))
      true (pyStr "default") = some (false, 0) :=
  ⟨(claim_C5_unusable_sentinel witnessRegistry none (pyStr "default")
      (some (pyStr "letmein")) true (pyStr "default") (pyStr "abc")
      (by decide)).2.2.2.2.1,
   (claim_C5_unusable_sentinel witnessRegistry none (pyStr "default")
      (some (pyStr "letmein")) true (pyStr "default") (pyStr "abc")
      (by decide)).2.2.2.2.2⟩

/-- C8: `check_password` routes a 32-character `'$'`-free encoded value to
the registry's md5 hasher and any other usable value to the hasher tagged
by the prefix before the first `'$'`; in particular the legacy bare MD5
hash `0d107d09f5bbe40cade3de5c71e9e9b7` verifies true against the
password `letmein`. -/
theorem claim_C8_algorithm_detection (reg : List Hasher) (p e : Str)
    (sp : Bool) (pref : Str) (hpref h : Hasher) (b : Bool)
    (hp : p ≠ []) (hu : e ≠ UNUSABLE_PASSWORD)
    (h1 : get_hasher reg pref = some hpref) :
    ((e.length = 32 ∧ '$' ∉ e) → get_hasher reg (pyStr "md5") = some h →
      h.verify p e = some b →
      check_password reg (some p) (some e) sp pref =
        some (b, if sp && b && decide (h.algorithm ≠ hpref.algorithm)
          then 1 else 0)) ∧
    (¬(e.length = 32 ∧ '$' ∉ e) →
      get_hasher reg (e.takeWhile (fun c => c ≠ '$')) = some h →
      h.verify p e = some b →
      check_password reg (some p) (some e) sp pref =
        some (b, if sp && b && decide (h.algorithm ≠ hpref.algorithm)
          then 1 else 0)) ∧
    MD5PasswordHasher.verify (pyStr "letmein")
      (pyStr "0d107d09f5bbe40cade3de5c71e9e9b7") = some true := by
  refine ⟨?_, ?_, by decide⟩
  · intro hcond hget hverify
    refine check_password_run reg p e sp pref hpref h b hp hu h1 ?_ hverify
    unfold detect_hasher
    rw [if_pos hcond]
    exact hget
  · intro hcond hget hverify
    refine check_password_run reg p e sp pref hpref h b hp hu h1 ?_ hverify
    unfold detect_hasher
    rw [if_neg hcond]
    exact hget

theorem claim_C8_algorithm_detection_witness :
    check_password [MD5PasswordHasher] (some (pyStr "letmein"))
        (some (pyStr "0d107d09f5bbe40cade3de5c71e9e9b7")) true
        (pyStr "default") = some (true, 0) := by
  have h := (claim_C8_algorithm_detection [MD5PasswordHasher] (pyStr "letmein")
    (pyStr "0d107d09f5bbe40cade3de5c71e9e9b7") true (pyStr "default")
    MD5PasswordHasher MD5PasswordHasher true (by decide) (by decide) rfl).1
    ⟨by decide, by decide⟩ rfl (by decide)
  rw [h]
  rfl

theorem ne_unusable_of_dollar_mem {e : Str} (h : '$' ∈ e) :
    e ≠ UNUSABLE_PASSWORD := by
  intro hu
  rw [hu] at h
  exact absurd h (by decide)

theorem sha1_encode_dollar {sha1hex : Str → Str} {p s e : Str}
    (he : sha1_encode sha1hex p s = some e) : '$' ∈ e := by
  unfold sha1_encode at he
  split at he
  · exact absurd he (by simp)
  · split at he
    · exact absurd he (by simp)
    · rw [← Option.some.inj he]
      exact List.mem_append_right _ (List.mem_cons_self _ _)

/-- C10: for every non-empty password, every salt, and every hasher
variant, `make_password` never returns the unusable sentinel `"!"` (the
tagged hashers either raise or emit `algorithm$...`, and legacy MD5 emits
a 32-character hex digest), so whenever it returns an encoded value that
value is password-usable. -/
theorem claim_C10_make_password_usable
    (sha1hex : Str → Str) (hashpw cryptFn : Str → Str → Str)
    (gs1 gs2 gs3 gs4 gs5 : Str) (reg : List Hasher) (alg : Str) (h : Hasher)
    (hin : h ∈ [PBKDF2PasswordHasher gs1, PBKDF2SHA1PasswordHasher gs2,
      SHA1PasswordHasher sha1hex gs3, MD5PasswordHasher,
      BCryptPasswordHasher hashpw gs4, CryptPasswordHasher cryptFn gs5])
    (hget : get_hasher reg alg = some h) (p : Str) (hp : p ≠ [])
    (salt : Option Str) :
    make_password reg (some p) salt alg ≠ some (pyStr "!") ∧
    ∀ e, make_password reg (some p) salt alg = some e →
      ((∃ tag rest : Str, e = tag ++ '$' :: rest) ∨ e.length = 32) ∧
      is_password_usable (some e) = true := by
  have key : ∀ e, make_password reg (some p) salt alg = some e →
      ((∃ tag rest : Str, e = tag ++ '$' :: rest) ∨ e.length = 32) ∧
        e ≠ UNUSABLE_PASSWORD := by
    intro e he
    rw [make_password_run reg p salt alg h hp hget] at he
    simp only [List.mem_cons, List.mem_singleton, List.not_mem_nil,
      or_false] at hin
    rcases hin with rfl | rfl | rfl | rfl | rfl | rfl
    · have he2 : pbkdf2_encode (pyStr "pbkdf2_sha256") p _ 0 = some e := he
      rw [pbkdf2_encode_none] at he2
      exact absurd he2 (by simp)
    · have he2 : pbkdf2_encode (pyStr "pbkdf2_sha1") p _ 0 = some e := he
      rw [pbkdf2_encode_none] at he2
      exact absurd he2 (by simp)
    · have hd := sha1_encode_dollar he
      refine ⟨Or.inl ?_, ne_unusable_of_dollar_mem hd⟩
      obtain ⟨pre, suf, hsplit⟩ := List.append_of_mem hd
      exact ⟨pre, suf, hsplit⟩
    · have he' : md5hex p = e := Option.some.inj he
      rw [← he']
      exact ⟨Or.inr (md5hex_len p), md5hex_ne_unusable p⟩
    · have he' := Option.some.inj he
      rw [← he']
      refine ⟨Or.inl ⟨pyStr "bcrypt", _, rfl⟩, ne_unusable_of_dollar_mem ?_⟩
      exact List.mem_append_right _ (List.mem_cons_self _ _)
    · have hd : '$' ∈ e := by
        revert he
        show (CryptPasswordHasher cryptFn gs5).encode p _ = some e → '$' ∈ e
        intro he
        unfold CryptPasswordHasher at he
        simp only at he
        split at he
        · rw [← Option.some.inj he]
          exact List.mem_append_right _ (List.mem_cons_self _ _)
        · exact absurd he (by simp)
      refine ⟨Or.inl ?_, ne_unusable_of_dollar_mem hd⟩
      obtain ⟨pre, suf, hsplit⟩ := List.append_of_mem hd
      exact ⟨pre, suf, hsplit⟩
  constructor
  · intro hcontra
    exact (key (pyStr "!") hcontra).2 rfl
  · intro e he
    exact ⟨(key e he).1, usable_of_ne (key e he).2⟩

theorem claim_C10_make_password_usable_witness :
    make_password [MD5PasswordHasher] (some (pyStr "letmein")) none
        (pyStr "default") ≠ some (pyStr "!") ∧
    is_password_usable
      (some (md5hex (pyStr "letmein"))) = true := by
  have h := claim_C10_make_password_usable witnessSha1
    (fun p _ => p) (fun p _ => p) (pyStr "s1") (pyStr "s2") (pyStr "s3")
    (pyStr "s4") (pyStr "s5") [MD5PasswordHasher] (pyStr "default")
    MD5PasswordHasher
    (List.mem_cons_of_mem _ (List.mem_cons_of_mem _ (List.mem_cons_of_mem _
      (List.mem_cons_self _ _)))) rfl (pyStr "letmein") (by decide) none
  exact ⟨h.1, (h.2 (md5hex (pyStr "letmein")) rfl).2⟩

